import Mathlib

/-
Verification development for the android-gui-automation-agent repository.

The definitions below are a shallow embedding of the Python sources:
  src/perception.py       (PerceptionModule: hierarchy parsing, screen capture)
  src/inference.py        (GemmaInference: response parsing, prompt building)
  src/model_handler.py    (ModelHandler: response parsing, prompt building)
  src/agent.py            (GUIAutomationAgent: control loop, action dispatch)
  src/action_executor.py  (ActionExecutor, ppadb variant: press_key)
  src/action.py           (ActionExecutor, subprocess variant: press_key)

Python machine behaviour is modelled explicitly: exceptions become Except,
dictionaries become association lists, truthiness becomes jTruthy, the
builtin int() becomes pyInt, and str.lower/upper become ASCII case maps.
-/

/- ===== Python primitive models ===== -/

/-- Whitespace characters stripped by the Python builtin int(). -/
def isPySpace (c : Char) : Bool :=
  c == ' ' || c == '\t' || c == '\n' || c == '\r' || c == '\x0b' || c == '\x0c'

/-- Digit run accumulator for pyInt.  Mirrors the Python integer literal
grammar used by int(): digits with single underscores between digits. -/
def pyDigitsGo (acc : Nat) : List Char → Option Nat
  | [] => some acc
  | '_' :: d :: rest =>
      if d.isDigit then pyDigitsGo (acc * 10 + (d.toNat - 48)) rest else none
  | '_' :: [] => none
  | d :: rest =>
      if d.isDigit then pyDigitsGo (acc * 10 + (d.toNat - 48)) rest else none

/-- Parse a nonempty digit run (underscores allowed between digits). -/
def pyDigits : List Char → Option Nat
  | [] => none
  | d :: rest => if d.isDigit then pyDigitsGo (d.toNat - 48) rest else none

/-- Strip Python int() whitespace from both ends of a character list. -/
def pyStrip (cs : List Char) : List Char :=
  ((cs.dropWhile isPySpace).reverse.dropWhile isPySpace).reverse

/-- Model of the Python builtin int() on a string: optional surrounding
whitespace, an optional single sign, then digits; None on failure. -/
def pyInt (cs : List Char) : Option Int :=
  match pyStrip cs with
  | '-' :: rest => (pyDigits rest).map (fun n => -(n : Int))
  | '+' :: rest => (pyDigits rest).map (fun n => (n : Int))
  | rest => (pyDigits rest).map (fun n => (n : Int))

/-- ASCII lower-casing of one character (model of str.lower on ASCII). -/
def asciiLowerChar (c : Char) : Char :=
  if 65 ≤ c.toNat ∧ c.toNat ≤ 90 then Char.ofNat (c.toNat + 32) else c

/-- ASCII upper-casing of one character (model of str.upper on ASCII). -/
def asciiUpperChar (c : Char) : Char :=
  if 97 ≤ c.toNat ∧ c.toNat ≤ 122 then Char.ofNat (c.toNat - 32) else c

/-- Model of str.lower restricted to ASCII letters. -/
def pyLowerStr (s : String) : String := String.mk (s.data.map asciiLowerChar)

/-- Model of str.upper restricted to ASCII letters. -/
def pyUpperStr (s : String) : String := String.mk (s.data.map asciiUpperChar)

/- ===== JSON value model (result of json.loads) ===== -/

/-- JSON values as produced by json.loads.  Integral JSON numbers become
Python int (jint); numbers with a fraction or exponent become Python float,
modelled here as an exact rational (jnum). -/
inductive JVal where
  | null
  | jbool (b : Bool)
  | jint (n : Int)
  | jnum (q : Rat)
  | jstr (s : String)
  | jarr (xs : List JVal)
  | jobj (kvs : List (String × JVal))
deriving Repr

/-- A Python dict with string keys, in insertion order. -/
abbrev JDict := List (String × JVal)

/-- Model of dict lookup: a JSON object with duplicate keys becomes a dict
keeping the last binding, so the last occurrence wins. -/
def pyGet (k : String) : JDict → Option JVal
  | [] => none
  | (k1, v) :: rest =>
      match pyGet k rest with
      | some w => some w
      | none => if k1 == k then some v else none

/-- Model of dict.get with a default. -/
def pyGetD (k : String) (d : JDict) (dflt : JVal) : JVal :=
  (pyGet k d).getD dflt

/-- Model of the Python idiom (d.get(k) is not None): a missing key and an
explicit JSON null both give None. -/
def getNonNull (k : String) (d : JDict) : Option JVal :=
  match pyGet k d with
  | some JVal.null => none
  | r => r

/-- Python truthiness of a value coming from JSON. -/
def jTruthy : JVal → Bool
  | JVal.null => false
  | JVal.jbool b => b
  | JVal.jint n => n ≠ 0
  | JVal.jnum q => q ≠ 0
  | JVal.jstr s => s ≠ ""
  | JVal.jarr xs => ¬ xs.isEmpty
  | JVal.jobj kvs => ¬ kvs.isEmpty

/- ===== UI hierarchy model (src/perception.py) ===== -/

/- An XML element tree, as handed to PerceptionModule parsing: a tag, an
attribute list and the child nodes. -/
mutual
inductive XNode where
  | mk (tag : String) (attrib : List (String × String)) (children : XForest)
deriving DecidableEq, Repr
inductive XForest where
  | nil
  | cons (n : XNode) (f : XForest)
deriving DecidableEq, Repr
end

def XNode.tag : XNode → String
  | .mk t _ _ => t

def XNode.attrib : XNode → List (String × String)
  | .mk _ a _ => a

def XNode.children : XNode → XForest
  | .mk _ _ c => c

/-- Model of ElementTree attrib.get with a default (attribute keys are
unique in XML, so first match suffices). -/
def getAttr (k dflt : String) : List (String × String) → String
  | [] => dflt
  | (k1, v) :: rest => if k1 == k then v else getAttr k dflt rest

/-- Rectangle produced by PerceptionModule bounds parsing. -/
structure Bounds where
  x1 : Int
  y1 : Int
  x2 : Int
  y2 : Int
deriving DecidableEq, Repr

/-- Left-to-right non-overlapping replacement of the two-character pattern
right-bracket left-bracket by a comma, as in the first str.replace of
PerceptionModule <| bounds parsing. -/
def replBrackPair : List Char → List Char
  | ']' :: '[' :: rest => ',' :: replBrackPair rest
  | c :: rest => c :: replBrackPair rest
  | [] => []

/-- Model of str.split on a one-character separator. -/
def splitChar (sep : Char) : List Char → List (List Char)
  | [] => [[]]
  | c :: rest =>
      if c == sep then [] :: splitChar sep rest
      else
        match splitChar sep rest with
        | h :: t => (c :: h) :: t
        | [] => [[c]]

/-- Embedding of PerceptionModule bounds parsing: strip brackets, split on
commas, convert the first four fields with int(); any exception yields the
zero rect. -/
def parseBounds (s : String) : Bounds :=
  let munged := ((replBrackPair s.data).filter (fun c => c ≠ '[')).filter (fun c => c ≠ ']')
  match splitChar ',' munged with
  | a :: b :: c :: d :: _ =>
      match pyInt a, pyInt b, pyInt c, pyInt d with
      | some x1, some y1, some x2, some y2 => ⟨x1, y1, x2, y2⟩
      | _, _, _, _ => ⟨0, 0, 0, 0⟩
  | _ => ⟨0, 0, 0, 0⟩

/-- Embedding of the center computation: Python floor division by 2. -/
def calcCenter (b : Bounds) : Int × Int :=
  ((b.x1 + b.x2).fdiv 2, (b.y1 + b.y2).fdiv 2)

/-- One parsed UI element dictionary, as built by PerceptionModule. -/
structure UIElement where
  path : String
  cls : String
  text : String
  contentDesc : String
  resourceId : String
  clickable : Bool
  scrollable : Bool
  enabled : Bool
  bounds : Bounds
  centerX : Int
  centerY : Int
deriving DecidableEq, Repr

/-- Path assigned to a child node: parent path, slash, tag, index. -/
def childPath (p tag : String) (idx : Nat) : String :=
  p ++ "/" ++ tag ++ "[" ++ toString idx ++ "]"

/-- Build the element dictionary for one node at a given path. -/
def mkEl (attrib : List (String × String)) (path : String) : UIElement :=
  let bounds := parseBounds (getAttr "bounds" "[0,0][0,0]" attrib)
  let center := calcCenter bounds
  { path := path
    cls := getAttr "class" "" attrib
    text := getAttr "text" "" attrib
    contentDesc := getAttr "content-desc" "" attrib
    resourceId := getAttr "resource-id" "" attrib
    clickable := getAttr "clickable" "false" attrib == "true"
    scrollable := getAttr "scrollable" "false" attrib == "true"
    enabled := getAttr "enabled" "true" attrib == "true"
    bounds := bounds
    centerX := center.1
    centerY := center.2 }

/-- The inclusion test of PerceptionModule: keep interactive or informative
elements (empty strings are falsy in Python). -/
def includedEl (e : UIElement) : Bool :=
  e.clickable || e.scrollable || !(e.text == "") || !(e.contentDesc == "")

/-- Embedding of the recursive element extraction: for each child in order,
build its dictionary, append it when included, then recurse into its
children, then continue with the remaining siblings. -/
def parseListF : XForest → String → Nat → List UIElement
  | .nil, _, _ => []
  | .cons (.mk tag attrib ch) rest, p, idx =>
      let path := childPath p tag idx
      let el := mkEl attrib path
      (if includedEl el then [el] else []) ++
        (parseListF ch path 0 ++ parseListF rest p (idx + 1))

/-- Embedding of the parse entry point on a root element: the root itself is
only a container, its children are traversed with the given parent path. -/
def parseUIElements (root : XNode) (parentPath : String) : List UIElement :=
  parseListF root.children parentPath 0

/-- All nodes reachable by the traversal, with the path each would get:
depth-first, pre-order, exactly the visit order of the source. -/
def allNodesF : XForest → String → Nat → List (XNode × String)
  | .nil, _, _ => []
  | .cons (.mk tag attrib ch) rest, p, idx =>
      let path := childPath p tag idx
      (XNode.mk tag attrib ch, path) ::
        (allNodesF ch path 0 ++ allNodesF rest p (idx + 1))

/-- The element dictionary a visited node would produce. -/
def elOf (np : XNode × String) : UIElement :=
  mkEl np.1.attrib np.2

/- ===== Screen state capture (src/perception.py) ===== -/

/-- Opaque screenshot handle with its pixel size (PIL image size). -/
structure Screenshot where
  width : Nat
  height : Nat
deriving DecidableEq, Repr

/-- The dictionary returned by extract_ui_hierarchy. -/
structure UIHierarchy where
  elements : List UIElement
  elementCount : Nat
deriving DecidableEq, Repr

/-- The dictionary returned by capture_screen_state. -/
structure ScreenState where
  screenshot : Screenshot
  uiHierarchy : UIHierarchy
  screenSize : Nat × Nat
deriving DecidableEq, Repr

/-- Embedding of extract_ui_hierarchy: the adb dump, pull and XML parse are
one fallible external step; on any exception the handler returns a
dictionary with an empty element list instead of propagating. -/
def extractUIHierarchy (dumpRes : Except Unit XNode) : UIHierarchy :=
  match dumpRes with
  | .ok root =>
      let els := parseUIElements root ""
      ⟨els, els.length⟩
  | .error _ => ⟨[], 0⟩

/-- Embedding of capture_screen_state: a screenshot failure propagates as an
exception, while the hierarchy step never fails (see extractUIHierarchy). -/
def captureScreenState (shotRes : Except Unit Screenshot)
    (dumpRes : Except Unit XNode) : Except Unit ScreenState :=
  match shotRes with
  | .error e => .error e
  | .ok shot => .ok ⟨shot, extractUIHierarchy dumpRes, (shot.width, shot.height)⟩

/- ===== JSON parser (model of json.loads in strict mode) ===== -/

/-- JSON structural whitespace. -/
def jsonWsChar (c : Char) : Bool :=
  c == ' ' || c == '\t' || c == '\n' || c == '\r'

/-- Skip JSON whitespace. -/
def skipWs (cs : List Char) : List Char := cs.dropWhile jsonWsChar

/-- Hexadecimal digit value. -/
def hexVal (c : Char) : Option Nat :=
  if c.isDigit then some (c.toNat - 48)
  else if 97 ≤ c.toNat ∧ c.toNat ≤ 102 then some (c.toNat - 87)
  else if 65 ≤ c.toNat ∧ c.toNat ≤ 70 then some (c.toNat - 55)
  else none

/-- Single-character JSON escapes. -/
def escChar : Char → Option Char
  | '"' => some '"'
  | '\\' => some '\\'
  | '/' => some '/'
  | 'b' => some '\x08'
  | 'f' => some '\x0c'
  | 'n' => some '\n'
  | 'r' => some '\r'
  | 't' => some '\t'
  | _ => none

/-- JSON string body parser, after the opening quote: returns the decoded
characters and the remaining input.  Strict mode: unescaped control
characters and unknown escapes are errors. -/
def parseJStrGo (acc : List Char) : List Char → Option (List Char × List Char)
  | [] => none
  | '"' :: rest => some (acc.reverse, rest)
  | '\\' :: 'u' :: a :: b :: c :: d :: rest =>
      (match hexVal a, hexVal b, hexVal c, hexVal d with
       | some ha, some hb, some hc, some hd =>
           parseJStrGo (Char.ofNat (((ha * 16 + hb) * 16 + hc) * 16 + hd) :: acc) rest
       | _, _, _, _ => none)
  | '\\' :: e :: rest =>
      (match escChar e with
       | some ce => parseJStrGo (ce :: acc) rest
       | none => none)
  | '\\' :: [] => none
  | c :: rest => if c.toNat < 32 then none else parseJStrGo (c :: acc) rest

/-- Numeric value of a digit run. -/
def natOfDigits (ds : List Char) : Nat :=
  ds.foldl (fun a c => a * 10 + (c.toNat - 48)) 0

/-- Ten to an integer power, as a rational. -/
def ratPow10 (e : Int) : Rat :=
  if 0 ≤ e then ((10 : Rat) ^ e.toNat) else 1 / ((10 : Rat) ^ (-e).toNat)

/-- Value of a JSON number with fraction digits and decimal exponent. -/
def floatVal (ds fs : List Char) (ex : Int) : Rat :=
  (((natOfDigits ds : Int) : Rat) + ((natOfDigits fs : Int) : Rat) / ((10 : Rat) ^ fs.length))
    * ratPow10 ex

/-- Exponent part of a JSON number, after consuming the letter e. -/
def parseExpPart (cs : List Char) : Option (Int × List Char) :=
  match cs with
  | '+' :: r =>
      let (ds, r2) := r.span Char.isDigit
      if ds.isEmpty then none else some ((natOfDigits ds : Int), r2)
  | '-' :: r =>
      let (ds, r2) := r.span Char.isDigit
      if ds.isEmpty then none else some (-(natOfDigits ds : Int), r2)
  | r =>
      let (ds, r2) := r.span Char.isDigit
      if ds.isEmpty then none else some ((natOfDigits ds : Int), r2)

/-- Negate a parsed JSON number. -/
def negJ : JVal → JVal
  | JVal.jint n => JVal.jint (-n)
  | JVal.jnum q => JVal.jnum (-q)
  | v => v

/-- Unsigned JSON number: an integer literal yields a Python int, a literal
with a fraction or exponent yields a Python float. -/
def parseJNumCore (cs : List Char) : Option (JVal × List Char) :=
  let (ds, cs2) := cs.span Char.isDigit
  if ds.isEmpty then none
  else if ds.length > 1 ∧ ds.headD '1' == '0' then none
  else
    match cs2 with
    | '.' :: r =>
        let (fs, cs3) := r.span Char.isDigit
        if fs.isEmpty then none
        else
          (match cs3 with
           | e :: r2 =>
               if e == 'e' || e == 'E' then
                 match parseExpPart r2 with
                 | some (ex, cs4) => some (JVal.jnum (floatVal ds fs ex), cs4)
                 | none => none
               else some (JVal.jnum (floatVal ds fs 0), cs3)
           | [] => some (JVal.jnum (floatVal ds fs 0), []))
    | e :: r2 =>
        if e == 'e' || e == 'E' then
          match parseExpPart r2 with
          | some (ex, cs4) => some (JVal.jnum (floatVal ds [] ex), cs4)
          | none => none
        else some (JVal.jint (natOfDigits ds : Int), cs2)
    | [] => some (JVal.jint (natOfDigits ds : Int), [])

/-- JSON number parser with optional leading minus. -/
def parseJNum (cs : List Char) : Option (JVal × List Char) :=
  match cs with
  | '-' :: r => (parseJNumCore r).map (fun vr => (negJ vr.1, vr.2))
  | r => parseJNumCore r

mutual

/-- Fuel-indexed JSON value parser.  Mirrors the recursive descent of
json.loads; the fuel strictly exceeds the nesting depth of any input that
jsonLoads passes in, so it never runs out on those inputs. -/
def parseJVal : Nat → List Char → Option (JVal × List Char)
  | 0, _ => none
  | fuel + 1, cs =>
      match skipWs cs with
      | '{' :: rest =>
          (match skipWs rest with
           | '}' :: r => some (JVal.jobj [], r)
           | cs2 => parseMembers fuel cs2 [])
      | '[' :: rest =>
          (match skipWs rest with
           | ']' :: r => some (JVal.jarr [], r)
           | cs2 => parseItems fuel cs2 [])
      | '"' :: rest =>
          (match parseJStrGo [] rest with
           | some (s, r) => some (JVal.jstr (String.mk s), r)
           | none => none)
      | 't' :: 'r' :: 'u' :: 'e' :: r => some (JVal.jbool true, r)
      | 'f' :: 'a' :: 'l' :: 's' :: 'e' :: r => some (JVal.jbool false, r)
      | 'n' :: 'u' :: 'l' :: 'l' :: r => some (JVal.null, r)
      | c :: rest => if c == '-' || c.isDigit then parseJNum (c :: rest) else none
      | [] => none

/-- Members of a JSON object, positioned at the start of a key. -/
def parseMembers : Nat → List Char → JDict → Option (JVal × List Char)
  | 0, _, _ => none
  | fuel + 1, cs, acc =>
      match cs with
      | '"' :: rest =>
          (match parseJStrGo [] rest with
           | none => none
           | some (k, r1) =>
               match skipWs r1 with
               | ':' :: r2 =>
                   (match parseJVal fuel r2 with
                    | none => none
                    | some (v, r3) =>
                        match skipWs r3 with
                        | ',' :: r4 => parseMembers fuel (skipWs r4) (acc ++ [(String.mk k, v)])
                        | '}' :: r4 => some (JVal.jobj (acc ++ [(String.mk k, v)]), r4)
                        | _ => none)
               | _ => none)
      | _ => none

/-- Items of a JSON array. -/
def parseItems : Nat → List Char → List JVal → Option (JVal × List Char)
  | 0, _, _ => none
  | fuel + 1, cs, acc =>
      match parseJVal fuel cs with
      | none => none
      | some (v, r1) =>
          match skipWs r1 with
          | ',' :: r2 => parseItems fuel r2 (acc ++ [v])
          | ']' :: r2 => some (JVal.jarr (acc ++ [v]), r2)
          | _ => none

end

/-- Model of json.loads: parse one value and require only whitespace after
it, else raise JSONDecodeError (None here). -/
def jsonLoads (s : String) : Option JVal :=
  match parseJVal (s.length + 2) s.data with
  | some (v, rest) => if (skipWs rest).isEmpty then some v else none
  | none => none

/- ===== Response parsing (src/inference.py) ===== -/

/-- Split at the first brace: the brace-free prefix and the rest. -/
def spanToBrace : List Char → List Char × List Char
  | [] => ([], [])
  | c :: rest =>
      if c == '{' || c == '}' then ([], c :: rest)
      else
        let (a, b) := spanToBrace rest
        (c :: a, b)

/-- Model of the regex search for an opening brace, a run free of braces,
and a closing brace: the match starts at the leftmost opening brace whose
next brace is a closing one. -/
def regexSpanAux : List Char → Option (List Char)
  | [] => none
  | c :: rest =>
      if c == '{' then
        match spanToBrace rest with
        | (mid, '}' :: _) => some ('{' :: (mid ++ ['}']))
        | _ => regexSpanAux rest
      else regexSpanAux rest

/-- The substring the source regex extracts from the raw response. -/
def regexBraceSpan (s : String) : Option String :=
  (regexSpanAux s.data).map String.mk

/-- The wait fallback dictionary of the response parser. -/
def waitFallback : JDict := [("type", JVal.jstr "wait"), ("duration", JVal.jint 1)]

/-- The wait dictionary returned for an unknown action kind. -/
def waitUnknown : JDict :=
  [("type", JVal.jstr "wait"), ("duration", JVal.jint 1),
   ("description", JVal.jstr "Unknown action, waiting")]

/-- Element dictionary with all attributes defaulted; used as the
irrelevant default of guarded list indexing. -/
def dummyEl : UIElement := mkEl [] ""

/-- The reasoning field with its empty-string default. -/
def reasonOf (kvs : JDict) : JVal := pyGetD "reasoning" kvs (JVal.jstr "")

/-- Tap action resolved to the center of a screen element. -/
def tapOfElement (e : UIElement) (kvs : JDict) : JDict :=
  [("type", JVal.jstr "tap"), ("x", JVal.jint e.centerX), ("y", JVal.jint e.centerY),
   ("description", reasonOf kvs)]

/-- Tap action built from explicit coordinates with defaults 100, 100. -/
def tapFallback (kvs : JDict) : JDict :=
  [("type", JVal.jstr "tap"), ("x", pyGetD "x" kvs (JVal.jint 100)),
   ("y", pyGetD "y" kvs (JVal.jint 100)), ("description", reasonOf kvs)]

/-- Text input action dictionary. -/
def textInputDict (kvs : JDict) : JDict :=
  [("type", JVal.jstr "text_input"), ("text", pyGetD "text" kvs (JVal.jstr "")),
   ("description", reasonOf kvs)]

/-- Swipe action dictionary with the source defaults. -/
def swipeDict (kvs : JDict) : JDict :=
  [("type", JVal.jstr "swipe"), ("x1", pyGetD "x1" kvs (JVal.jint 500)),
   ("y1", pyGetD "y1" kvs (JVal.jint 1000)), ("x2", pyGetD "x2" kvs (JVal.jint 500)),
   ("y2", pyGetD "y2" kvs (JVal.jint 300)), ("description", reasonOf kvs)]

/-- Key event action dictionary with default key BACK. -/
def keyEventDict (kvs : JDict) : JDict :=
  [("type", JVal.jstr "key_event"), ("key", pyGetD "key" kvs (JVal.jstr "BACK")),
   ("description", reasonOf kvs)]

/-- Task completion dictionary. -/
def taskCompleteDict (kvs : JDict) : JDict :=
  [("type", JVal.jstr "task_complete"),
   ("description", pyGetD "reasoning" kvs (JVal.jstr "Task completed"))]

/-- The tap branch of the response parser.  A Python int (or bool, which is
an int) in range resolves to the element center; out of range falls back to
explicit coordinates; a float raises inside list indexing only when the
range test passes; any other type raises in the comparison itself. -/
def tapBranch (kvs : JDict) (els : List UIElement) : Except Unit JDict :=
  match getNonNull "element_id" kvs with
  | some (JVal.jint i) =>
      if 0 ≤ i ∧ i < (els.length : Int) then
        .ok (tapOfElement (els.getD i.toNat dummyEl) kvs)
      else .ok (tapFallback kvs)
  | some (JVal.jbool b) =>
      if (if b then (1 : Int) else 0) < (els.length : Int) then
        .ok (tapOfElement (els.getD (if b then 1 else 0) dummyEl) kvs)
      else .ok (tapFallback kvs)
  | some (JVal.jnum q) =>
      if 0 ≤ q ∧ q < (els.length : Rat) then .error () else .ok (tapFallback kvs)
  | some _ => .error ()
  | none => .ok (tapFallback kvs)

/-- Dispatch on the action kind, mirroring the source branch order. -/
def buildAction (v : JVal) (els : List UIElement) : Except Unit JDict :=
  match v with
  | JVal.jobj kvs =>
      (match pyGetD "action_type" kvs (JVal.jstr "wait") with
       | JVal.jstr t =>
           if t == "tap" then tapBranch kvs els
           else if t == "text_input" then .ok (textInputDict kvs)
           else if t == "swipe" then .ok (swipeDict kvs)
           else if t == "key_event" || t == "press_key" then .ok (keyEventDict kvs)
           else if t == "task_complete" then .ok (taskCompleteDict kvs)
           else .ok waitUnknown
       | _ => .ok waitUnknown)
  | _ => .error ()

/-- Stage of the parser after the regex has extracted a candidate string:
json.loads failure or any later exception degrades to the wait fallback. -/
def afterExtract (j : String) (els : List UIElement) : JDict :=
  match jsonLoads j with
  | none => waitFallback
  | some v =>
      match buildAction v els with
      | .ok d => d
      | .error _ => waitFallback

/-- Embedding of the response parser of GemmaInference: regex extraction,
json.loads, then action construction; every failure path returns the wait
fallback dictionary. -/
def parseActionFromResponse (r : String) (els : List UIElement) : JDict :=
  match regexBraceSpan r with
  | none => waitFallback
  | some j => afterExtract j els

/- ===== Response parsing (src/model_handler.py) ===== -/

/-- Suffix of the input starting at the first opening brace. -/
def firstBraceSuffix : List Char → Option (List Char)
  | [] => none
  | c :: r => if c == '{' then some (c :: r) else firstBraceSuffix r

/-- The slice the ModelHandler parser takes: from the first opening brace
through the last closing brace, when both exist in that order. -/
def mhSpan (s : String) : Option String :=
  match firstBraceSuffix s.data with
  | none => none
  | some suf =>
      let rev := suf.reverse.dropWhile (fun c => c ≠ '}')
      if rev.isEmpty then none else some (String.mk rev.reverse)

/-- Substring test used by the heuristic fallback. -/
def hasSubstr (needle : List Char) : List Char → Bool
  | [] => needle.isEmpty
  | c :: rest => needle.isPrefixOf (c :: rest) || hasSubstr needle rest

/-- The heuristic fallback of ModelHandler: completion language in the raw
text yields a completion record, otherwise a waiting record. -/
def fallbackAction (r : String) : JDict :=
  let low := (pyLowerStr r).data
  if hasSubstr "complete".data low || hasSubstr "done".data low then
    [("reasoning", JVal.jstr "Task appears complete"),
     ("action", JVal.jobj [("type", JVal.jstr "wait"), ("duration", JVal.jint 0)]),
     ("task_complete", JVal.jbool true)]
  else
    [("reasoning", JVal.jstr "Waiting for next observation"),
     ("action", JVal.jobj [("type", JVal.jstr "wait"), ("duration", JVal.jint 2)]),
     ("task_complete", JVal.jbool false)]

/-- Embedding of the ModelHandler response parser: first-to-last brace
slice, then json.loads, with the heuristic fallback on any failure.  The
slice always starts with an opening brace, so a successful load is an
object. -/
def parseModelResponse (r : String) : JDict :=
  match mhSpan r with
  | none => fallbackAction r
  | some j =>
      match jsonLoads j with
      | some (JVal.jobj d) => d
      | _ => fallbackAction r

/- ===== Action dispatch and control loop (src/agent.py) ===== -/

/-- A call handed to the executor collaborator.  Payloads are the raw
dictionary values, exactly as the source passes them. -/
inductive ExecCall where
  | tapC (x y : JVal)
  | swipeC (x1 y1 x2 y2 : JVal)
  | inputTextC (t : JVal)
  | pressKeyC (k : JVal)
deriving Repr

/-- Embedding of the agent action dispatch: look up the action kind, read
the required keys (a missing key raises), hand the call to the executor and
return its boolean; the wait kind only sleeps; an unknown kind logs and
returns False; a non-dictionary action raises. -/
def executeAction (exec : ExecCall → Bool) (action : JVal) :
    Except Unit (Option ExecCall × Bool) :=
  match action with
  | JVal.jobj d =>
      (match pyGet "type" d with
       | some (JVal.jstr t) =>
           if t == "tap" then
             match pyGet "x" d, pyGet "y" d with
             | some x, some y => let c := ExecCall.tapC x y; .ok (some c, exec c)
             | _, _ => .error ()
           else if t == "swipe" then
             match pyGet "start_x" d, pyGet "start_y" d,
                   pyGet "end_x" d, pyGet "end_y" d with
             | some a, some b, some c2, some d2 =>
                 let c := ExecCall.swipeC a b c2 d2; .ok (some c, exec c)
             | _, _, _, _ => .error ()
           else if t == "input_text" then
             match pyGet "text" d with
             | some tx => let c := ExecCall.inputTextC tx; .ok (some c, exec c)
             | none => .error ()
           else if t == "press_key" then
             match pyGet "key" d with
             | some k => let c := ExecCall.pressKeyC k; .ok (some c, exec c)
             | none => .error ()
           else if t == "wait" then
             match pyGetD "duration" d (JVal.jint 2) with
             | JVal.jint _ => .ok (none, true)
             | JVal.jnum _ => .ok (none, true)
             | JVal.jbool _ => .ok (none, true)
             | _ => .error ()
           else .ok (none, false)
       | some _ => .ok (none, false)
       | none => .ok (none, false))
  | _ => .error ()

/-- What the collaborators do at one step of a task run: whether the screen
capture succeeds, and the record the model handler returns (that call never
raises; its internal failures already degrade to a fallback record). -/
structure StepEnv where
  captureOk : Bool
  response : JDict

/-- Embedding of the run_task while loop.  Arguments: the per-step
environment, the executor, the current step counter and the remaining
budget.  Returns the boolean task result and the final step counter. -/
def runTaskGo (env : Nat → StepEnv) (exec : ExecCall → Bool) :
    Nat → Nat → Bool × Nat
  | cur, 0 => (false, cur)
  | cur, rem + 1 =>
      let step := cur + 1
      let e := env step
      if e.captureOk then
        if jTruthy (pyGetD "task_complete" e.response (JVal.jbool false)) then
          (true, step)
        else
          match pyGet "action" e.response with
          | none => (false, step)
          | some a =>
              if jTruthy a then
                match executeAction exec a with
                | .ok _ => runTaskGo env exec step rem
                | .error _ => (false, step)
              else (false, step)
      else (false, step)

/-- Embedding of run_task: loop from step zero with the configured budget. -/
def runTask (maxSteps : Nat) (env : Nat → StepEnv) (exec : ExecCall → Bool) :
    Bool × Nat :=
  runTaskGo env exec 0 maxSteps

/- ===== Key tables (src/action_executor.py and src/action.py) ===== -/

/-- First-match lookup in a literal table (the tables have no duplicate
keys, so this is dict lookup). -/
def lookupTab {α : Type} (k : String) : List (String × α) → Option α
  | [] => none
  | (k1, v) :: rest => if k1 == k then some v else lookupTab k rest

/-- The key code table of the ppadb executor variant. -/
def keyCodesExecutor : List (String × Nat) :=
  [("home", 3), ("back", 4), ("enter", 66), ("menu", 82), ("power", 26),
   ("volume_up", 24), ("volume_down", 25), ("tab", 61), ("space", 62),
   ("delete", 67)]

/-- Embedding of press_key in the ppadb executor variant: lower-case the
name and look it up; an unknown name issues no key event and returns
False (None here). -/
def pressKeyExecutor (key : String) : Option Nat :=
  lookupTab (pyLowerStr key) keyCodesExecutor

/-- The key code table of the subprocess executor variant.  It has no
entries for TAB or SPACE. -/
def keyCodesAction : List (String × String) :=
  [("HOME", "3"), ("BACK", "4"), ("ENTER", "66"), ("DELETE", "67"),
   ("MENU", "82"), ("POWER", "26"), ("VOLUME_UP", "24"), ("VOLUME_DOWN", "25")]

/-- Embedding of press_key in the subprocess executor variant: upper-case
the name and look it up, defaulting to the raw key string itself, which is
then issued verbatim as the keyevent argument. -/
def pressKeyAction (key : String) : String :=
  (lookupTab (pyUpperStr key) keyCodesAction).getD key

/- ===== Prompt building (src/inference.py and src/model_handler.py) ===== -/

/-- Last dot-separated component of a class name. -/
def elemType (cls : String) : String :=
  String.mk ((splitChar '.' cls.data).getLastD [])

/-- Label of one prompt line: the text, else the content description, else
the class component (Python or-chain on truthiness). -/
def elemLabel (e : UIElement) : String :=
  if e.text ≠ "" then e.text
  else if e.contentDesc ≠ "" then e.contentDesc
  else elemType e.cls

/-- Clickable marker of one prompt line. -/
def clickTag (e : UIElement) : String :=
  if e.clickable then "[CLICKABLE]" else ""

/-- One line of the GemmaInference element listing. -/
def elemLine (idx : Nat) (e : UIElement) : String :=
  "  " ++ toString idx ++ ": " ++ elemLabel e ++ " (" ++ elemType e.cls ++ ") " ++
    clickTag e ++ " at (" ++ toString e.centerX ++ ", " ++ toString e.centerY ++ ")\n"

/-- Enumerated element lines starting at a given index. -/
def elementsTextGo (idx : Nat) : List UIElement → String
  | [] => ""
  | e :: rest => elemLine idx e ++ elementsTextGo (idx + 1) rest

/-- Embedding of the element listing built by the GemmaInference prompt:
only the first twenty elements are enumerated. -/
def elementsText (els : List UIElement) : String :=
  "Available UI Elements:\n" ++ elementsTextGo 0 (els.take 20)

/-- Python repr of a boolean, as interpolated into an f-string. -/
def pyBoolRepr (b : Bool) : String := if b then "True" else "False"

/-- One line of the ModelHandler element listing. -/
def mhLine (i : Nat) (e : UIElement) : String :=
  toString (i + 1) ++ ". " ++ elemType e.cls ++ " at (" ++ toString e.centerX ++
    ", " ++ toString e.centerY ++ "): text=\x27" ++ e.text ++ "\x27, desc=\x27" ++
    e.contentDesc ++ "\x27, clickable=" ++ pyBoolRepr e.clickable

/-- Newline-joined enumerated lines starting at a given index. -/
def mhLinesGo (i : Nat) : List UIElement → List String
  | [] => []
  | e :: rest => mhLine i e :: mhLinesGo (i + 1) rest

/-- Embedding of the UI description built by the ModelHandler prompt: only
the first twenty elements are enumerated. -/
def uiDescription (els : List UIElement) : String :=
  String.intercalate "\n" (mhLinesGo 0 (els.take 20))

/- ===== Theorems: hierarchy parsing (claims about src/perception.py) ===== -/

/-- Structural characterization of the traversal: the parsed elements are
exactly the descriptors of the included visited nodes, in visit order. -/
theorem parseListF_eq_filterMap : ∀ (f : XForest) (p : String) (idx : Nat),
    parseListF f p idx
      = ((allNodesF f p idx).filter (fun np => includedEl (elOf np))).map elOf
  | .nil, _, _ => rfl
  | .cons (.mk tag attrib ch) rest, p, idx => by
      have h1 := parseListF_eq_filterMap ch (childPath p tag idx) 0
      have h2 := parseListF_eq_filterMap rest p (idx + 1)
      by_cases hc : includedEl (mkEl attrib (childPath p tag idx)) <;>
        simp [parseListF, allNodesF, elOf, XNode.attrib, List.filter_cons, hc, h1, h2]

/-- A node reachable from a visited node is itself visited. -/
theorem mem_allNodesF_descend : ∀ (f : XForest) (p : String) (i : Nat)
    (n : XNode) (q : String), (n, q) ∈ allNodesF f p i →
    ∀ mq ∈ allNodesF n.children q 0, mq ∈ allNodesF f p i
  | .nil, _, _, _, _, h => by simp [allNodesF] at h
  | .cons (.mk tag attrib ch) rest, p, i, n, q, h => by
      intro mq hmq
      simp only [allNodesF, List.mem_cons, List.mem_append] at h ⊢
      rcases h with h | h | h
      · obtain ⟨rfl, rfl⟩ : n = XNode.mk tag attrib ch ∧ q = childPath p tag i := by
          exact ⟨congrArg Prod.fst h, congrArg Prod.snd h⟩
        right; left
        simpa [XNode.children] using hmq
      · right; left
        exact mem_allNodesF_descend ch (childPath p tag i) 0 n q h mq hmq
      · right; right
        exact mem_allNodesF_descend rest p (i + 1) n q h mq hmq

/-- C6: inclusion invariant of hierarchy parsing.  A descriptor of a
visited node appears in the output when the node is clickable, scrollable,
or has nonempty text or content description; every output element arises
from such a node; and the nodes reachable below any visited node are
visited regardless of whether that node itself was emitted.  The visited
nodes are exactly the strict descendants of the dump root, which the
source treats as a pure container. -/
theorem hierarchy_inclusion_invariant : ∀ (f : XForest) (p : String) (i : Nat),
    (∀ np ∈ allNodesF f p i, includedEl (elOf np) = true → elOf np ∈ parseListF f p i)
    ∧ (∀ e ∈ parseListF f p i,
        ∃ np ∈ allNodesF f p i, includedEl (elOf np) = true ∧ e = elOf np)
    ∧ (∀ np ∈ allNodesF f p i, ∀ mq ∈ allNodesF (np.1).children np.2 0,
        mq ∈ allNodesF f p i) := by
  intro f p i
  refine ⟨?_, ?_, ?_⟩
  · intro np hmem hinc
    rw [parseListF_eq_filterMap]
    exact List.mem_map_of_mem _ (List.mem_filter.mpr ⟨hmem, by simp [hinc]⟩)
  · intro e he
    rw [parseListF_eq_filterMap] at he
    obtain ⟨np, hnp, rfl⟩ := List.mem_map.mp he
    have hf := List.mem_filter.mp hnp
    exact ⟨np, hf.1, by simpa using hf.2, rfl⟩
  · rintro ⟨n, q⟩ hmem mq hmq
    exact mem_allNodesF_descend f p i n q hmem mq hmq

/-- A concrete two-node tree: a clickable parent with a text child. -/
def demoForest : XForest :=
  .cons (.mk "node" [("clickable", "true"), ("bounds", "[100,200][300,400]")]
    (.cons (.mk "node" [("text", "hi")] .nil) .nil)) .nil

/-- The inner node of the demo tree with the path it is assigned. -/
def demoInner : XNode × String :=
  (XNode.mk "node" [("text", "hi")] .nil, childPath (childPath "" "node" 0) "node" 0)

/-- Witness for C6 on the demo tree: the text child of a clickable parent
is visited and emitted. -/
theorem hierarchy_inclusion_invariant_witness :
    demoInner ∈ allNodesF demoForest "" 0
    ∧ elOf demoInner ∈ parseListF demoForest "" 0 := by
  have hm : demoInner ∈ allNodesF demoForest "" 0 := by
    simp [allNodesF, demoForest, demoInner]
  exact ⟨hm, (hierarchy_inclusion_invariant demoForest "" 0).1 demoInner hm (by decide)⟩

/-- Integer token of the strict bounds grammar: an optional minus sign and
a nonempty digit run, nothing else. -/
def intTok : List Char → Option (Int × List Char)
  | '-' :: rest =>
      let (ds, r) := rest.span Char.isDigit
      if ds.isEmpty then none else some (-(natOfDigits ds : Int), r)
  | cs =>
      let (ds, r) := cs.span Char.isDigit
      if ds.isEmpty then none else some ((natOfDigits ds : Int), r)

/-- Modelled from the spec: the exact bounds grammar, integers and the four
bracket and comma delimiters with no whitespace, consuming the whole
string.  Used only to compare the lenient source parser against the
grammar the spec states. -/
def strictBoundsSpec (s : String) : Option Bounds :=
  match s.data with
  | '[' :: r1 =>
      (match intTok r1 with
       | some (x1, ',' :: r2) =>
           (match intTok r2 with
            | some (y1, ']' :: '[' :: r3) =>
                (match intTok r3 with
                 | some (x2, ',' :: r4) =>
                     (match intTok r4 with
                      | some (y2, ']' :: []) => some ⟨x1, y1, x2, y2⟩
                      | _ => none)
                 | _ => none)
            | _ => none)
       | _ => none)
  | _ => none

/-- C5 counterexample: a bounds string with interior whitespace is outside
the exact grammar, yet the node built from it does not get the zero rect,
because the Python int() conversion tolerates surrounding whitespace. -/
theorem malformed_bounds_cex :
    strictBoundsSpec "[0, 0][10,10]" = none
    ∧ (mkEl [("bounds", "[0, 0][10,10]")] "/node[0]").bounds = ⟨0, 0, 10, 10⟩
    ∧ (⟨0, 0, 10, 10⟩ : Bounds) ≠ ⟨0, 0, 0, 0⟩ :=
  ⟨rfl, rfl, by decide⟩

/-- C5 amended: strings in the exact grammar parse to their rect, strings
whose fields fail integer conversion get the zero rect without raising,
and a node with malformed bounds never aborts the traversal: the elements
of its siblings and of its own children always remain in the output. -/
theorem bounds_fallback_and_traversal :
    parseBounds "[100,200][300,400]" = ⟨100, 200, 300, 400⟩
    ∧ parseBounds "[a,b][c,d]" = ⟨0, 0, 0, 0⟩
    ∧ parseBounds "" = ⟨0, 0, 0, 0⟩
    ∧ parseBounds "[1,2][3]" = ⟨0, 0, 0, 0⟩
    ∧ (∀ (tag : String) (attrib : List (String × String)) (ch rest : XForest)
         (p : String) (i : Nat),
         (parseListF rest p (i + 1)).Sublist
           (parseListF (.cons (.mk tag attrib ch) rest) p i)
         ∧ (parseListF ch (childPath p tag i) 0).Sublist
             (parseListF (.cons (.mk tag attrib ch) rest) p i)) := by
  refine ⟨rfl, rfl, rfl, rfl, ?_⟩
  intro tag attrib ch rest p i
  constructor
  · show (parseListF rest p (i + 1)).Sublist
      ((if includedEl (mkEl attrib (childPath p tag i))
          then [mkEl attrib (childPath p tag i)] else []) ++
        (parseListF ch (childPath p tag i) 0 ++ parseListF rest p (i + 1)))
    exact ((List.sublist_append_right _ _).trans (List.sublist_append_right _ _))
  · show (parseListF ch (childPath p tag i) 0).Sublist
      ((if includedEl (mkEl attrib (childPath p tag i))
          then [mkEl attrib (childPath p tag i)] else []) ++
        (parseListF ch (childPath p tag i) 0 ++ parseListF rest p (i + 1)))
    exact ((List.sublist_append_left _ _).trans (List.sublist_append_right _ _))

/- ===== Theorems: screen state capture (claim C2) ===== -/

/-- C2 counterexample: when the hierarchy dump fails but the screenshot
succeeds, capture_screen_state does not fail; it returns a screen state
whose element list is empty. -/
theorem captureScreenState_partial_cex :
    captureScreenState (.ok ⟨1080, 1920⟩) (.error ())
      = .ok ⟨⟨1080, 1920⟩, ⟨[], 0⟩, (1080, 1920)⟩
    ∧ (captureScreenState (.ok ⟨1080, 1920⟩) (.error ())).isOk = true :=
  ⟨rfl, rfl⟩

/-- C2 amended: only a screenshot failure makes the whole capture fail; a
hierarchy dump failure is swallowed inside extract_ui_hierarchy and yields
a degraded screen state with an empty element list, and when both succeed
the state carries the parsed elements. -/
theorem captureScreenState_amended :
    (∀ h : Except Unit XNode, captureScreenState (.error ()) h = .error ())
    ∧ (∀ s : Screenshot,
        captureScreenState (.ok s) (.error ()) = .ok ⟨s, ⟨[], 0⟩, (s.width, s.height)⟩)
    ∧ (∀ (s : Screenshot) (root : XNode),
        captureScreenState (.ok s) (.ok root)
          = .ok ⟨s, ⟨parseUIElements root "", (parseUIElements root "").length⟩,
                 (s.width, s.height)⟩) :=
  ⟨fun _ => rfl, fun _ => rfl, fun _ _ => rfl⟩

/- ===== Theorems: action dispatch (claim C4) ===== -/

/-- C4 counterexample: a tap far outside a 1080 by 1920 screen is handed to
the executor with its coordinates untouched; nothing clamps them into the
screen rectangle. -/
theorem executeAction_no_clamp_cex :
    executeAction (fun _ => true)
      (JVal.jobj [("type", JVal.jstr "tap"), ("x", JVal.jint 5000), ("y", JVal.jint 5000)])
      = .ok (some (ExecCall.tapC (JVal.jint 5000) (JVal.jint 5000)), true)
    ∧ ¬((5000 : Int) < 1080) :=
  ⟨rfl, by decide⟩

/-- C4 amended: the coordinates handed to the executor collaborator are
exactly the ones in the validated action dictionary; the dispatch performs
no clamping, no wrapping and no modification, for taps and for swipes. -/
theorem executeAction_passthrough : ∀ (exec : ExecCall → Bool) (d : JDict),
    (∀ x y, pyGet "type" d = some (JVal.jstr "tap") →
      pyGet "x" d = some x → pyGet "y" d = some y →
      executeAction exec (JVal.jobj d)
        = .ok (some (ExecCall.tapC x y), exec (ExecCall.tapC x y)))
    ∧ (∀ a b c2 d2, pyGet "type" d = some (JVal.jstr "swipe") →
      pyGet "start_x" d = some a → pyGet "start_y" d = some b →
      pyGet "end_x" d = some c2 → pyGet "end_y" d = some d2 →
      executeAction exec (JVal.jobj d)
        = .ok (some (ExecCall.swipeC a b c2 d2), exec (ExecCall.swipeC a b c2 d2))) := by
  intro exec d
  constructor
  · intro x y ht hx hy
    simp [executeAction, ht, hx, hy]
  · intro a b c2 d2 ht ha hb hc hd
    simp [executeAction, ht, ha, hb, hc, hd]

/-- Witness for C4 amended at a concrete tap action. -/
theorem executeAction_passthrough_witness :
    executeAction (fun _ => true)
      (JVal.jobj [("type", JVal.jstr "tap"), ("x", JVal.jint 42), ("y", JVal.jint 17)])
      = .ok (some (ExecCall.tapC (JVal.jint 42) (JVal.jint 17)), true) :=
  (executeAction_passthrough (fun _ => true)
      [("type", JVal.jstr "tap"), ("x", JVal.jint 42), ("y", JVal.jint 17)]).1
    (JVal.jint 42) (JVal.jint 17) rfl rfl rfl

/- ===== Theorems: key tables (claim C9) ===== -/

/-- C9 counterexample: the subprocess executor variant has no table entry
for TAB or SPACE; press_key passes those names through verbatim as the
keyevent argument instead of the numeric codes 61 and 62. -/
theorem pressKey_tab_space_cex :
    pressKeyAction "TAB" = "TAB" ∧ pressKeyAction "SPACE" = "SPACE"
    ∧ ("TAB" : String) ≠ "61" ∧ ("SPACE" : String) ≠ "62" :=
  ⟨rfl, rfl, by decide, by decide⟩

/-- C9 amended: the ppadb executor variant maps all ten enumerated names,
case-insensitively, to the fixed codes; the subprocess variant maps only
the eight names in its table (case-insensitively via upper-casing) and
passes TAB and SPACE through as the literal key string. -/
theorem pressKey_tables_amended :
    pressKeyExecutor "HOME" = some 3 ∧ pressKeyExecutor "Back" = some 4
    ∧ pressKeyExecutor "enter" = some 66 ∧ pressKeyExecutor "Delete" = some 67
    ∧ pressKeyExecutor "MENU" = some 82 ∧ pressKeyExecutor "Power" = some 26
    ∧ pressKeyExecutor "VOLUME_UP" = some 24 ∧ pressKeyExecutor "volume_down" = some 25
    ∧ pressKeyExecutor "Tab" = some 61 ∧ pressKeyExecutor "space" = some 62
    ∧ pressKeyAction "home" = "3" ∧ pressKeyAction "Back" = "4"
    ∧ pressKeyAction "enter" = "66" ∧ pressKeyAction "delete" = "67"
    ∧ pressKeyAction "Menu" = "82" ∧ pressKeyAction "power" = "26"
    ∧ pressKeyAction "volume_up" = "24" ∧ pressKeyAction "Volume_Down" = "25"
    ∧ pressKeyAction "TAB" = "TAB" ∧ pressKeyAction "SPACE" = "SPACE" :=
  ⟨rfl, rfl, rfl, rfl, rfl, rfl, rfl, rfl, rfl, rfl,
   rfl, rfl, rfl, rfl, rfl, rfl, rfl, rfl, rfl, rfl⟩

/- ===== Theorems: control loop (claim C8) ===== -/

/-- The step counter never exceeds the starting counter plus the remaining
budget. -/
theorem runTaskGo_steps_le (env : Nat → StepEnv) (exec : ExecCall → Bool) :
    ∀ (rem cur : Nat), (runTaskGo env exec cur rem).2 ≤ cur + rem := by
  intro rem
  induction rem with
  | zero => intro cur; simp [runTaskGo]
  | succ n ih =>
      intro cur
      simp only [runTaskGo]
      split
      · split
        · simp only [Prod.snd]; omega
        · split
          · simp only [Prod.snd]; omega
          · split
            · split
              · calc (runTaskGo env exec (cur + 1) n).2 ≤ (cur + 1) + n := ih (cur + 1)
                  _ = cur + (n + 1) := by omega
              · simp only [Prod.snd]; omega
            · simp only [Prod.snd]; omega
      · simp only [Prod.snd]; omega

/-- If no step ever reports completion, the loop never returns True. -/
theorem runTaskGo_no_complete (env : Nat → StepEnv) (exec : ExecCall → Bool)
    (h : ∀ i, jTruthy (pyGetD "task_complete" (env i).response (JVal.jbool false)) = false) :
    ∀ (rem cur : Nat), (runTaskGo env exec cur rem).1 = false := by
  intro rem
  induction rem with
  | zero => intro cur; simp [runTaskGo]
  | succ n ih =>
      intro cur
      simp only [runTaskGo, h (cur + 1), Bool.false_eq_true, if_false]
      split
      · split
        · rfl
        · split
          · split
            · exact ih (cur + 1)
            · rfl
          · rfl
      · rfl

/-- A step at which the loop neither finishes nor aborts: the capture
succeeds, the record does not claim completion, and a truthy action
dictionary is present and executes without raising. -/
def goodStep (exec : ExecCall → Bool) (e : StepEnv) : Prop :=
  e.captureOk = true
  ∧ jTruthy (pyGetD "task_complete" e.response (JVal.jbool false)) = false
  ∧ ∃ a, pyGet "action" e.response = some a ∧ jTruthy a = true
      ∧ ∃ r, executeAction exec a = .ok r

/-- Under uniformly good steps the loop runs the whole budget and ends
unfinished. -/
theorem runTaskGo_exhausts (env : Nat → StepEnv) (exec : ExecCall → Bool)
    (h : ∀ i, goodStep exec (env i)) :
    ∀ (rem cur : Nat), runTaskGo env exec cur rem = (false, cur + rem) := by
  intro rem
  induction rem with
  | zero => intro cur; simp [runTaskGo]
  | succ n ih =>
      intro cur
      obtain ⟨hc, hnc, a, ha, hta, r, hex⟩ := h (cur + 1)
      simp only [runTaskGo, hc, if_true, hnc, Bool.false_eq_true, if_false, ha, hta, hex]
      rw [ih (cur + 1)]
      exact congrArg (Prod.mk false) (by omega)

/-- C8: the control loop performs at most max_steps iterations: the final
step counter is bounded by the budget; whenever no step reports a
TaskComplete record the result is False, which is distinct from the True
returned on completion; and when every step proceeds normally without
completing, the loop runs exactly max_steps steps and returns False, the
exhausted outcome. -/
theorem step_budget : ∀ (m : Nat) (env : Nat → StepEnv) (exec : ExecCall → Bool),
    (runTask m env exec).2 ≤ m
    ∧ ((∀ i, jTruthy (pyGetD "task_complete" (env i).response (JVal.jbool false)) = false) →
        (runTask m env exec).1 = false)
    ∧ ((∀ i, goodStep exec (env i)) → runTask m env exec = (false, m)) := by
  intro m env exec
  refine ⟨?_, ?_, ?_⟩
  · simpa using runTaskGo_steps_le env exec m 0
  · intro h
    exact runTaskGo_no_complete env exec h m 0
  · intro h
    simpa using runTaskGo_exhausts env exec h m 0

/-- A constant environment whose steps are all good and never complete. -/
def goodEnv : Nat → StepEnv :=
  fun _ => ⟨true, [("action", JVal.jobj [("type", JVal.jstr "wait")])]⟩

/-- Witness for C8: with a two-step budget and steps that never complete,
the run exhausts the budget at step counter two with result False. -/
theorem step_budget_witness :
    (runTask 2 goodEnv (fun _ => true)).1 = false
    ∧ runTask 2 goodEnv (fun _ => true) = (false, 2) :=
  ⟨(step_budget 2 goodEnv (fun _ => true)).2.1 (fun _ => rfl),
   (step_budget 2 goodEnv (fun _ => true)).2.2
     (fun _ => ⟨rfl, rfl, JVal.jobj [("type", JVal.jstr "wait")], rfl, rfl,
       (none, true), rfl⟩)⟩

/- ===== Theorems: element reference resolution (claims C1, C7) ===== -/

/-- In-range element reference: a tap with an integer element_id inside the
element list resolves to that element. -/
theorem buildAction_tap_inrange (els : List UIElement) (kvs : JDict) (i : Int)
    (hat : pyGetD "action_type" kvs (JVal.jstr "wait") = JVal.jstr "tap")
    (hei : getNonNull "element_id" kvs = some (JVal.jint i))
    (h0 : 0 ≤ i) (h1 : i < (els.length : Int)) :
    buildAction (JVal.jobj kvs) els = .ok (tapOfElement (els.getD i.toNat dummyEl) kvs) := by
  simp [buildAction, hat, tapBranch, hei, h0, h1]

/-- Out-of-range element reference: the parser falls back to the explicit
coordinate fields with defaults 100, 100. -/
theorem buildAction_tap_oob (els : List UIElement) (kvs : JDict) (i : Int)
    (hat : pyGetD "action_type" kvs (JVal.jstr "wait") = JVal.jstr "tap")
    (hei : getNonNull "element_id" kvs = some (JVal.jint i))
    (hr : ¬(0 ≤ i ∧ i < (els.length : Int))) :
    buildAction (JVal.jobj kvs) els = .ok (tapFallback kvs) := by
  simp [buildAction, hat, tapBranch, hei, hr]

/-- Three concrete screen elements with distinct centers. -/
def elA : UIElement := mkEl [("bounds", "[0,0][100,100]"), ("clickable", "true")] "/node[0]"

def elB : UIElement := mkEl [("bounds", "[0,100][100,200]"), ("text", "b")] "/node[1]"

def elC : UIElement := mkEl [("bounds", "[0,200][100,300]"), ("content-desc", "c")] "/node[2]"

/-- A three-element snapshot. -/
def els3 : List UIElement := [elA, elB, elC]

/-- C1 counterexample: element_id 99 against a three-element snapshot with
no coordinate fields present yields a tap at the default coordinates
100, 100 - not the Wait fallback the claim states. -/
theorem element_ref_oob_cex :
    parseActionFromResponse "\x7b\"action_type\": \"tap\", \"element_id\": 99\x7d" els3
      = [("type", JVal.jstr "tap"), ("x", JVal.jint 100), ("y", JVal.jint 100),
         ("description", JVal.jstr "")]
    ∧ pyGet "type"
        (parseActionFromResponse "\x7b\"action_type\": \"tap\", \"element_id\": 99\x7d" els3)
        = some (JVal.jstr "tap")
    ∧ ([("type", JVal.jstr "tap"), ("x", JVal.jint 100), ("y", JVal.jint 100),
        ("description", JVal.jstr "")] : JDict) ≠ waitFallback :=
  ⟨rfl, rfl, by simp [waitFallback]⟩

/-- C1 amended: an element_id i with 0 le i lt len resolves the tap to the
center of element i exactly; an out-of-range element_id falls back to the
explicit coordinate fields of the response, defaulting to the tap at
coordinates 100, 100 when those fields are absent - it never produces the
Wait fallback and never raises. -/
theorem element_ref_resolution : ∀ (els : List UIElement) (kvs : JDict) (i : Int),
    (pyGetD "action_type" kvs (JVal.jstr "wait") = JVal.jstr "tap" →
     getNonNull "element_id" kvs = some (JVal.jint i) →
     0 ≤ i → i < (els.length : Int) →
     buildAction (JVal.jobj kvs) els = .ok (tapOfElement (els.getD i.toNat dummyEl) kvs))
    ∧ (pyGetD "action_type" kvs (JVal.jstr "wait") = JVal.jstr "tap" →
       getNonNull "element_id" kvs = some (JVal.jint i) →
       ¬(0 ≤ i ∧ i < (els.length : Int)) →
       pyGet "x" kvs = none → pyGet "y" kvs = none →
       buildAction (JVal.jobj kvs) els
         = .ok [("type", JVal.jstr "tap"), ("x", JVal.jint 100), ("y", JVal.jint 100),
                ("description", reasonOf kvs)]) := by
  intro els kvs i
  constructor
  · intro hat hei h0 h1
    exact buildAction_tap_inrange els kvs i hat hei h0 h1
  · intro hat hei hr hx hy
    rw [buildAction_tap_oob els kvs i hat hei hr]
    simp [tapFallback, pyGetD, hx, hy]

/-- Witness for C1 amended on the three-element snapshot: element_id 1
resolves to the center of the second element, and element_id 99 with no
coordinate fields gives the default tap. -/
theorem element_ref_resolution_witness :
    buildAction (JVal.jobj [("action_type", JVal.jstr "tap"), ("element_id", JVal.jint 1)]) els3
      = .ok (tapOfElement elB [("action_type", JVal.jstr "tap"), ("element_id", JVal.jint 1)])
    ∧ buildAction (JVal.jobj [("action_type", JVal.jstr "tap"), ("element_id", JVal.jint 99)]) els3
      = .ok [("type", JVal.jstr "tap"), ("x", JVal.jint 100), ("y", JVal.jint 100),
             ("description", JVal.jstr "")] :=
  ⟨(element_ref_resolution els3
      [("action_type", JVal.jstr "tap"), ("element_id", JVal.jint 1)] 1).1
      rfl rfl (by decide) (by decide),
   (element_ref_resolution els3
      [("action_type", JVal.jstr "tap"), ("element_id", JVal.jint 99)] 99).2
      rfl rfl (by decide) rfl rfl⟩

/-- The shapes a parsed action dictionary can take: each variant is fully
populated with its required keys, or it is one of the two wait fallbacks. -/
def WellFormedAction (d : JDict) : Prop :=
  d = waitFallback ∨ d = waitUnknown
  ∨ (∃ x y ds, d = [("type", JVal.jstr "tap"), ("x", x), ("y", y), ("description", ds)])
  ∨ (∃ tx ds, d = [("type", JVal.jstr "text_input"), ("text", tx), ("description", ds)])
  ∨ (∃ a b c e ds, d = [("type", JVal.jstr "swipe"), ("x1", a), ("y1", b), ("x2", c),
        ("y2", e), ("description", ds)])
  ∨ (∃ k ds, d = [("type", JVal.jstr "key_event"), ("key", k), ("description", ds)])
  ∨ (∃ ds, d = [("type", JVal.jstr "task_complete"), ("description", ds)])

/-- Every successful result of the tap branch is a fully populated tap. -/
theorem tapBranch_wf (kvs : JDict) (els : List UIElement) (d : JDict)
    (h : tapBranch kvs els = .ok d) :
    ∃ x y ds, d = [("type", JVal.jstr "tap"), ("x", x), ("y", y), ("description", ds)] := by
  unfold tapBranch at h
  split at h
  · split at h
    · obtain rfl := Except.ok.inj h
      exact ⟨_, _, _, rfl⟩
    · obtain rfl := Except.ok.inj h
      exact ⟨_, _, _, rfl⟩
  · split at h <;> split at h <;>
      · obtain rfl := Except.ok.inj h
        exact ⟨_, _, _, rfl⟩
  · split at h
    · exact absurd h (by simp)
    · obtain rfl := Except.ok.inj h
      exact ⟨_, _, _, rfl⟩
  · exact absurd h (by simp)
  · obtain rfl := Except.ok.inj h
    exact ⟨_, _, _, rfl⟩

/-- Every successful result of the action builder is well formed. -/
theorem buildAction_wf (v : JVal) (els : List UIElement) (d : JDict)
    (h : buildAction v els = .ok d) : WellFormedAction d := by
  unfold buildAction at h
  split at h
  case _ kvs =>
    split at h
    case _ t =>
      split_ifs at h
      · exact Or.inr (Or.inr (Or.inl (tapBranch_wf kvs els d h)))
      · obtain rfl := Except.ok.inj h
        exact Or.inr (Or.inr (Or.inr (Or.inl ⟨_, _, rfl⟩)))
      · obtain rfl := Except.ok.inj h
        exact Or.inr (Or.inr (Or.inr (Or.inr (Or.inl ⟨_, _, _, _, _, rfl⟩))))
      · obtain rfl := Except.ok.inj h
        exact Or.inr (Or.inr (Or.inr (Or.inr (Or.inr (Or.inl ⟨_, _, rfl⟩)))))
      · obtain rfl := Except.ok.inj h
        exact Or.inr (Or.inr (Or.inr (Or.inr (Or.inr (Or.inr ⟨_, rfl⟩)))))
      · obtain rfl := Except.ok.inj h
        exact Or.inr (Or.inl rfl)
    case _ =>
      obtain rfl := Except.ok.inj h
      exact Or.inr (Or.inl rfl)
  case _ =>
    exact absurd h (by simp)

/-- C7: the response parser never fails outward.  For every raw planner
text and screen state the result is a well formed action dictionary, and in
each degraded case - no extractable JSON object, unparseable JSON, or an
unknown action kind - the result is the Wait fallback with the default
duration of one second. -/
theorem parse_never_fails_outward : ∀ (r : String) (els : List UIElement),
    WellFormedAction (parseActionFromResponse r els)
    ∧ (regexBraceSpan r = none → parseActionFromResponse r els = waitFallback)
    ∧ (∀ j, regexBraceSpan r = some j → jsonLoads j = none →
        parseActionFromResponse r els = waitFallback)
    ∧ (∀ j kvs t, regexBraceSpan r = some j →
        jsonLoads j = some (JVal.jobj kvs) →
        pyGetD "action_type" kvs (JVal.jstr "wait") = JVal.jstr t →
        t ∉ (["tap", "text_input", "swipe", "key_event", "press_key",
              "task_complete"] : List String) →
        parseActionFromResponse r els = waitUnknown) := by
  intro r els
  refine ⟨?_, ?_, ?_, ?_⟩
  · unfold parseActionFromResponse
    split
    · exact Or.inl rfl
    · unfold afterExtract
      split
      · exact Or.inl rfl
      · split
        · apply buildAction_wf
          assumption
        · exact Or.inl rfl
  · intro hn
    simp [parseActionFromResponse, hn]
  · intro j hj hl
    simp [parseActionFromResponse, hj, afterExtract, hl]
  · intro j kvs t hj hl hat hmem
    simp only [List.mem_cons, List.not_mem_nil, or_false, not_or] at hmem
    obtain ⟨m1, m2, m3, m4, m5, m6⟩ := hmem
    simp [parseActionFromResponse, hj, afterExtract, hl, buildAction, hat, m1, m2, m3, m4, m5, m6]

/-- Witness for C7 at three concrete degraded inputs: text with no JSON
object, an unparseable brace span, and an unknown action kind. -/
theorem parse_never_fails_outward_witness :
    parseActionFromResponse "no json here" [] = waitFallback
    ∧ parseActionFromResponse "\x7bbad\x7d" [] = waitFallback
    ∧ parseActionFromResponse "\x7b\"action_type\": \"fly\"\x7d" [] = waitUnknown :=
  ⟨(parse_never_fails_outward "no json here" []).2.1 rfl,
   (parse_never_fails_outward "\x7bbad\x7d" []).2.2.1 "\x7bbad\x7d" rfl rfl,
   (parse_never_fails_outward "\x7b\"action_type\": \"fly\"\x7d" []).2.2.2
     "\x7b\"action_type\": \"fly\"\x7d" [("action_type", JVal.jstr "fly")] "fly"
     rfl rfl rfl (by decide)⟩

/- ===== Theorems: JSON extraction from prose (claim C3) ===== -/

/-- Rebuilding a string from its characters is the identity. -/
theorem mk_data_eq (s : String) : String.mk s.data = s := rfl

/-- A brace-free run followed by a closing brace splits exactly there. -/
theorem spanToBrace_clean : ∀ (mid post : List Char),
    (∀ c ∈ mid, c ≠ '{' ∧ c ≠ '}') →
    spanToBrace (mid ++ '}' :: post) = (mid, '}' :: post)
  | [], post, _ => by simp [spanToBrace]
  | c :: mid, post, h => by
      have hc := h c (by simp)
      have ih := spanToBrace_clean mid post (fun x hx => h x (by simp [hx]))
      simp [spanToBrace, hc.1, hc.2, ih]

/-- The regex scan over text whose first opening brace starts a span with
no interior braces returns exactly that span. -/
theorem regexSpanAux_clean : ∀ (pre mid post : List Char),
    (∀ c ∈ pre, c ≠ '{') → (∀ c ∈ mid, c ≠ '{' ∧ c ≠ '}') →
    regexSpanAux (pre ++ '{' :: (mid ++ '}' :: post)) = some ('{' :: (mid ++ ['}']))
  | [], mid, post, _, hmid => by
      simp [regexSpanAux, spanToBrace_clean mid post hmid]
  | c :: pre, mid, post, hpre, hmid => by
      have hc := hpre c (by simp)
      have ih := regexSpanAux_clean pre mid post (fun x hx => hpre x (by simp [hx])) hmid
      simp [regexSpanAux, hc, ih]

/-- Character list of the decomposed response text. -/
theorem response_data_eq (pre mid post : String) :
    (pre ++ "\x7b" ++ mid ++ "\x7d" ++ post).data
      = pre.data ++ '{' :: (mid.data ++ '}' :: post.data) := by
  have h1 : ("\x7b" : String).data = ['{'] := rfl
  have h2 : ("\x7d" : String).data = ['}'] := rfl
  simp [String.data_append, h1, h2]

/-- String-level form of the regex extraction lemma. -/
theorem regexBraceSpan_clean (pre mid post : String)
    (hpre : ∀ c ∈ pre.data, c ≠ '{') (hmid : ∀ c ∈ mid.data, c ≠ '{' ∧ c ≠ '}') :
    regexBraceSpan (pre ++ "\x7b" ++ mid ++ "\x7d" ++ post)
      = some ("\x7b" ++ mid ++ "\x7d") := by
  unfold regexBraceSpan
  rw [response_data_eq, regexSpanAux_clean pre.data mid.data post.data hpre hmid]
  have hobj : ('{' :: (mid.data ++ ['}'])) = ("\x7b" ++ mid ++ "\x7d").data := by
    have h1 : ("\x7b" : String).data = ['{'] := rfl
    have h2 : ("\x7d" : String).data = ['}'] := rfl
    simp [String.data_append, h1, h2]
  show some (String.mk ('{' :: (mid.data ++ ['}']))) = some ("\x7b" ++ mid ++ "\x7d")
  rw [hobj, mk_data_eq]

/-- The first-brace scan lands on the first opening brace. -/
theorem firstBraceSuffix_clean : ∀ (pre rest : List Char), (∀ c ∈ pre, c ≠ '{') →
    firstBraceSuffix (pre ++ '{' :: rest) = some ('{' :: rest)
  | [], rest, _ => by simp [firstBraceSuffix]
  | c :: pre, rest, h => by
      have hc := h c (by simp)
      have ih := firstBraceSuffix_clean pre rest (fun x hx => h x (by simp [hx]))
      simp [firstBraceSuffix, hc, ih]

/-- Dropping over a fully satisfying prefix skips it. -/
theorem dropWhile_append_all (p : Char → Bool) : ∀ (l r : List Char),
    (∀ c ∈ l, p c = true) → (l ++ r).dropWhile p = r.dropWhile p
  | [], _, _ => rfl
  | c :: l, r, h => by
      simp [List.dropWhile, h c (by simp),
        dropWhile_append_all p l r (fun x hx => h x (by simp [hx]))]

/-- The ModelHandler slice isolates the object when the first brace opens
it and nothing after it contains a closing brace. -/
theorem mhSpan_clean (pre mid post : String)
    (hpre : ∀ c ∈ pre.data, c ≠ '{')
    (hpost : ∀ c ∈ post.data, c ≠ '}') :
    mhSpan (pre ++ "\x7b" ++ mid ++ "\x7d" ++ post) = some ("\x7b" ++ mid ++ "\x7d") := by
  unfold mhSpan
  rw [response_data_eq, firstBraceSuffix_clean pre.data _ hpre]
  have hrev : ('{' :: (mid.data ++ '}' :: post.data)).reverse
      = post.data.reverse ++ ('}' :: (mid.data.reverse ++ ['{'])) := by
    simp
  have hdrop : List.dropWhile (fun c => decide (c ≠ '}'))
      ('{' :: (mid.data ++ '}' :: post.data)).reverse
      = '}' :: (mid.data.reverse ++ ['{']) := by
    rw [hrev, dropWhile_append_all _ post.data.reverse _
      (by
        intro c hc
        have := hpost c (List.mem_reverse.mp hc)
        simp [this])]
    simp [List.dropWhile]
  have hobj : ('}' :: (mid.data.reverse ++ ['{'])).reverse
      = ("\x7b" ++ mid ++ "\x7d").data := by
    have h1 : ("\x7b" : String).data = ['{'] := rfl
    have h2 : ("\x7d" : String).data = ['}'] := rfl
    simp [String.data_append, h1, h2]
  show (if (List.dropWhile (fun c => decide (c ≠ '}'))
            ('{' :: (mid.data ++ '}' :: post.data)).reverse).isEmpty = true
        then none
        else some (String.mk (List.dropWhile (fun c => decide (c ≠ '}'))
            ('{' :: (mid.data ++ '}' :: post.data)).reverse).reverse))
      = some ("\x7b" ++ mid ++ "\x7d")
  rw [hdrop]
  simp only [List.isEmpty_cons, Bool.false_eq_true, if_false]
  rw [hobj, mk_data_eq]

/-- A planner response that is itself one balanced JSON object whose
reasoning string contains interior braces. -/
def nestedResp : String :=
  "\x7b\"action_type\": \"tap\", \"element_id\": 0, \"reasoning\": \"see \x7bnote\x7d\"\x7d"

/-- C3 counterexample: the whole text is a balanced top-level JSON object
(json.loads accepts it) whose action resolves to a tap at 50, 50, but the
parser - whose regex requires a brace pair with no interior braces -
degrades to the Wait fallback because the reasoning string contains
braces. -/
theorem brace_extraction_cex :
    jsonLoads nestedResp
      = some (JVal.jobj [("action_type", JVal.jstr "tap"), ("element_id", JVal.jint 0),
          ("reasoning", JVal.jstr "see \x7bnote\x7d")])
    ∧ parseActionFromResponse nestedResp els3 = waitFallback
    ∧ buildAction (JVal.jobj [("action_type", JVal.jstr "tap"), ("element_id", JVal.jint 0),
          ("reasoning", JVal.jstr "see \x7bnote\x7d")]) els3
        = .ok [("type", JVal.jstr "tap"), ("x", JVal.jint 50), ("y", JVal.jint 50),
               ("description", JVal.jstr "see \x7bnote\x7d")]
    ∧ waitFallback ≠ [("type", JVal.jstr "tap"), ("x", JVal.jint 50), ("y", JVal.jint 50),
          ("description", JVal.jstr "see \x7bnote\x7d")] :=
  ⟨rfl, rfl, rfl, by simp [waitFallback]⟩

/-- C3 amended: extraction is not brace balanced.  The GemmaInference regex
isolates the first object span only when the span contains no interior
braces at all (any prose before it may not contain an opening brace); the
ModelHandler slice isolates it only when additionally no closing brace
follows it.  Within those limits the extracted object is handed to
json.loads and produces the corresponding action. -/
theorem brace_extraction_amended : ∀ (pre mid post : String) (els : List UIElement),
    ((∀ c ∈ pre.data, c ≠ '{') → (∀ c ∈ mid.data, c ≠ '{' ∧ c ≠ '}') →
      regexBraceSpan (pre ++ "\x7b" ++ mid ++ "\x7d" ++ post)
        = some ("\x7b" ++ mid ++ "\x7d")
      ∧ parseActionFromResponse (pre ++ "\x7b" ++ mid ++ "\x7d" ++ post) els
          = afterExtract ("\x7b" ++ mid ++ "\x7d") els)
    ∧ ((∀ c ∈ pre.data, c ≠ '{') → (∀ c ∈ post.data, c ≠ '}') →
        mhSpan (pre ++ "\x7b" ++ mid ++ "\x7d" ++ post)
          = some ("\x7b" ++ mid ++ "\x7d")) := by
  intro pre mid post els
  refine ⟨fun hpre hmid => ?_,
    fun hpre hpost => mhSpan_clean pre mid post hpre hpost⟩
  have h := regexBraceSpan_clean pre mid post hpre hmid
  exact ⟨h, by simp [parseActionFromResponse, h]⟩

/-- Witness for C3 amended: the Scenario B text with prose before a
brace-free object is isolated by both parsers. -/
theorem brace_extraction_amended_witness :
    regexBraceSpan ("I will tap it " ++ "\x7b" ++ "\"action_type\": \"wait\"" ++ "\x7d" ++ "")
      = some ("\x7b" ++ "\"action_type\": \"wait\"" ++ "\x7d")
    ∧ mhSpan ("I will tap it " ++ "\x7b" ++ "\"action_type\": \"wait\"" ++ "\x7d" ++ "")
      = some ("\x7b" ++ "\"action_type\": \"wait\"" ++ "\x7d") :=
  ⟨((brace_extraction_amended "I will tap it " "\"action_type\": \"wait\"" "" []).1
      (by decide) (by decide)).1,
   (brace_extraction_amended "I will tap it " "\"action_type\": \"wait\"" "" []).2
      (by decide) (by decide)⟩

/- ===== Theorems: planner visibility limit (claim C10) ===== -/

/-- C10: both prompt builders enumerate only the first twenty elements -
the listing for any element sequence equals the listing for its first
twenty elements, so an element with index twenty or greater is never
presented to the planner - while element-id resolution still accepts any
in-range index, including indices of twenty and above. -/
theorem prompt_element_limit :
    (∀ els : List UIElement, elementsText els = elementsText (els.take 20))
    ∧ (∀ els : List UIElement, uiDescription els = uiDescription (els.take 20))
    ∧ (∀ (els : List UIElement) (i : Nat), 20 ≤ i → (i : Int) < (els.length : Int) →
        buildAction (JVal.jobj [("action_type", JVal.jstr "tap"),
            ("element_id", JVal.jint (i : Int))]) els
          = .ok (tapOfElement (els.getD i dummyEl)
              [("action_type", JVal.jstr "tap"), ("element_id", JVal.jint (i : Int))])) := by
  refine ⟨?_, ?_, ?_⟩
  · intro els
    simp [elementsText, List.take_take]
  · intro els
    simp [uiDescription, List.take_take]
  · intro els i _h20 hlen
    have h := buildAction_tap_inrange els
        [("action_type", JVal.jstr "tap"), ("element_id", JVal.jint (i : Int))] (i : Int)
        rfl rfl (Int.natCast_nonneg i) hlen
    simpa using h

/-- Twenty-five identical elements: index twenty is resolvable but never
enumerated in a prompt. -/
def els25 : List UIElement := List.replicate 25 elA

/-- Witness for C10: element_id twenty resolves against a twenty-five
element snapshot. -/
theorem prompt_element_limit_witness :
    buildAction (JVal.jobj [("action_type", JVal.jstr "tap"),
        ("element_id", JVal.jint 20)]) els25
      = .ok (tapOfElement (els25.getD 20 dummyEl)
          [("action_type", JVal.jstr "tap"), ("element_id", JVal.jint 20)]) :=
  prompt_element_limit.2.2 els25 20 (by decide) (by decide)
